import Mathlib

/-!
Double dispatch (`double_dispatch.cc`)

A shallow embedding of the two class hierarchies of `double_dispatch.cc`, of the two
resolution steps of a call `host->AcceptVisitor(*visitor)` (virtual dispatch on the host,
overload resolution on the static type of `*this`, virtual dispatch on the visitor), and
of the driver `main`.

Objects of both hierarchies have no data members, so an object is represented by its
dynamic class.  Standard output is the list of lines written so far: every handler body
is one statement `::std::cout << text << ::std::endl`, which appends one line.
-/

namespace DoubleDispatch

/-! ## Data model -/

/-- Classes of the host hierarchy: `Host` is the base, `Host1`, `Host2`, `Host3` derive
from it directly (source lines 32-50). -/
inductive HostClass where
  | Host
  | Host1
  | Host2
  | Host3
  deriving DecidableEq, Repr

/-- Classes of the visitor hierarchy: `Visitor` is the base, `Visitor1`, `Visitor2`,
`Visitor3` derive from it directly (source lines 57-71 and 86-118). -/
inductive VisitorClass where
  | Visitor
  | Visitor1
  | Visitor2
  | Visitor3
  deriving DecidableEq, Repr

/-- Class names as they are spelled in the source. -/
def HostClass.name : HostClass → String
  | .Host => "Host"
  | .Host1 => "Host1"
  | .Host2 => "Host2"
  | .Host3 => "Host3"

/-- Class names as they are spelled in the source. -/
def VisitorClass.name : VisitorClass → String
  | .Visitor => "Visitor"
  | .Visitor1 => "Visitor1"
  | .Visitor2 => "Visitor2"
  | .Visitor3 => "Visitor3"

/-- The test `b.isBaseOf d` holds when class `d` is `b` itself or derives from `b`:
a reference of type `b&` can bind to an object of class `d`. -/
def HostClass.isBaseOf (b d : HostClass) : Bool :=
  b == d || b == .Host

/-- A reference (or dereferenced pointer) to a host object: the class of the object it
refers to, and the declared type of the reference, which is that class or a base of it. -/
structure HostRef where
  dynamicType : HostClass
  staticType : HostClass
  wellTyped : staticType.isBaseOf dynamicType = true

/-- Standard output, as the list of lines written so far. -/
abbrev Stdout := List String

/-- The statement `::std::cout << text << ::std::endl;`. -/
def writeLine (text : String) (out : Stdout) : Stdout :=
  out ++ [text]

/-! ## The visitor hierarchy -/

/-- The four `VisitHost` overloads defined in the body of class `Visitor`, by parameter
type (source lines 59-70): the text each one streams. -/
def Visitor.VisitHost : HostClass → String
  | .Host => "Base visitor visiting base host"
  | .Host1 => "Base visitor visiting Host1"
  | .Host2 => "Base visitor visiting Host2"
  | .Host3 => "Base visitor visiting Host3"

/-- The `VisitHost` overrides defined in the body of class `Visitor1` (source lines
87-95); the class has no definition for the parameter type `Host&`. -/
def Visitor1.VisitHost : HostClass → Option String
  | .Host => none
  | .Host1 => some "Visitor1 visiting Host1"
  | .Host2 => some "Visitor1 visiting Host2"
  | .Host3 => some "Visitor1 visiting Host3"

/-- The `VisitHost` overrides defined in the body of class `Visitor2` (source lines
98-106); the class has no definition for the parameter type `Host&`. -/
def Visitor2.VisitHost : HostClass → Option String
  | .Host => none
  | .Host1 => some "Visitor2 visiting Host1"
  | .Host2 => some "Visitor2 visiting Host2"
  | .Host3 => some "Visitor2 visiting Host3"

/-- The `VisitHost` overrides defined in the body of class `Visitor3` (source lines
109-117); the class has no definition for the parameter type `Host&`. -/
def Visitor3.VisitHost : HostClass → Option String
  | .Host => none
  | .Host1 => some "Visitor3 visiting Host1"
  | .Host2 => some "Visitor3 visiting Host2"
  | .Host3 => some "Visitor3 visiting Host3"

/-- The override of the overload with parameter type `param` that class `cls` itself
defines, if it defines one. -/
def ownDefinition (cls : VisitorClass) (param : HostClass) : Option String :=
  match cls with
  | .Visitor => some (Visitor.VisitHost param)
  | .Visitor1 => Visitor1.VisitHost param
  | .Visitor2 => Visitor2.VisitHost param
  | .Visitor3 => Visitor3.VisitHost param

/-- The class whose definition is the final overrider of the virtual function
`VisitHost(param&)` in an object of dynamic class `cls`: the class itself when it
defines an override, its base `Visitor` otherwise. -/
def finalOverrider (cls : VisitorClass) (param : HostClass) : VisitorClass :=
  if (ownDefinition cls param).isSome then cls else .Visitor

/-- The text streamed by the final overrider of `VisitHost(param&)` in an object of
dynamic class `cls`. -/
def handlerText (cls : VisitorClass) (param : HostClass) : String :=
  (ownDefinition cls param).getD (Visitor.VisitHost param)

/-- Virtual call of the overload `VisitHost(param&)` on a visitor object of dynamic
class `visitor`: the body of the final overrider runs and writes its line. -/
def VisitHost (visitor : VisitorClass) (param : HostClass) (out : Stdout) : Stdout :=
  writeLine (handlerText visitor param) out

/-- Parameter types of the `VisitHost` overloads found by name lookup in class `Visitor`,
the declared type of every visitor reference of the program (`Visitor&` in
`AcceptVisitor`, `Visitor*` in `main`). -/
def visitHostOverloads : List HostClass :=
  [.Host, .Host1, .Host2, .Host3]

/-- Overload resolution for `visitor.VisitHost(arg)` with `arg` of declared type
`argType`: among the viable overloads (those whose parameter type is `argType` or a base
of it) the exact match is better than a derived-to-base conversion. -/
def resolveOverload (argType : HostClass) : HostClass :=
  let viable := visitHostOverloads.filter (fun p => p.isBaseOf argType)
  match viable.find? (fun p => p == argType) with
  | some p => p
  | none => .Host

/-- The call expression `visitor.VisitHost(host)` through a `Visitor`-typed reference:
the overload is chosen at compile time from the static type of `host`, the override at
run time from the dynamic class of `visitor`. -/
def callVisitHost (visitor : VisitorClass) (host : HostRef) (out : Stdout) : Stdout :=
  VisitHost visitor (resolveOverload host.staticType) out

/-! ## The host hierarchy -/

/-- Body of `Host::AcceptVisitor` (source lines 73-75): `*this` has static type `Host`. -/
def Host.AcceptVisitor (visitor : VisitorClass) (out : Stdout) : Stdout :=
  callVisitHost visitor ⟨.Host, .Host, rfl⟩ out

/-- Body of `Host1::AcceptVisitor` (source lines 76-78): `*this` has static type `Host1`. -/
def Host1.AcceptVisitor (visitor : VisitorClass) (out : Stdout) : Stdout :=
  callVisitHost visitor ⟨.Host1, .Host1, rfl⟩ out

/-- Body of `Host2::AcceptVisitor` (source lines 79-81): `*this` has static type `Host2`. -/
def Host2.AcceptVisitor (visitor : VisitorClass) (out : Stdout) : Stdout :=
  callVisitHost visitor ⟨.Host2, .Host2, rfl⟩ out

/-- Body of `Host3::AcceptVisitor` (source lines 82-84): `*this` has static type `Host3`. -/
def Host3.AcceptVisitor (visitor : VisitorClass) (out : Stdout) : Stdout :=
  callVisitHost visitor ⟨.Host3, .Host3, rfl⟩ out

/-- The call expression `host.AcceptVisitor(visitor)`: `AcceptVisitor` is virtual and every
class of the hierarchy defines it, so the body that runs is the one of the dynamic class
of the object, for any declared type of the reference. -/
def AcceptVisitor (host : HostRef) (visitor : VisitorClass) (out : Stdout) : Stdout :=
  match host.dynamicType with
  | .Host => Host.AcceptVisitor visitor out
  | .Host1 => Host1.AcceptVisitor visitor out
  | .Host2 => Host2.AcceptVisitor visitor out
  | .Host3 => Host3.AcceptVisitor visitor out

/-! ## The driver -/

/-- The array `hosts` of `main` (source line 122): three objects held as `Host*`. -/
def hosts : List HostRef :=
  [⟨.Host1, .Host, rfl⟩, ⟨.Host2, .Host, rfl⟩, ⟨.Host3, .Host, rfl⟩]

/-- The array `visitors` of `main` (source line 123): three objects held as `Visitor*`. -/
def visitors : List VisitorClass :=
  [.Visitor1, .Visitor2, .Visitor3]

/-- The nested range-for loops of `main` (source lines 124-132) over given arrays. -/
def crossProduct (hs : List HostRef) (vs : List VisitorClass) (out : Stdout) : Stdout :=
  hs.foldl (fun o host => vs.foldl (fun o2 visitor => AcceptVisitor host visitor o2) o) out

/-- The function `main` (source lines 121-134): the exit code and the lines written to an
initially empty standard output. -/
def main (_argc : Int) (_argv : List String) : Int × Stdout :=
  (0, crossProduct hosts visitors [])

/-- The loop of `main` with the call the source comments out (source line 129),
`visitor->VisitHost(*host)`, in place of `host->AcceptVisitor(*visitor)`. -/
def crossProductDirect (hs : List HostRef) (vs : List VisitorClass) (out : Stdout) : Stdout :=
  hs.foldl (fun o host => vs.foldl (fun o2 visitor => callVisitHost visitor host o2) o) out

/-- A host class other than the base class. -/
def HostClass.isConcrete (c : HostClass) : Bool :=
  c != .Host

/-- A visitor class other than the base class. -/
def VisitorClass.isConcrete (c : VisitorClass) : Bool :=
  c != .Visitor

/-! ## The flat dispatch table of the specification -/

/-- Host kinds of the specification's tagged union: the three concrete host variants. -/
inductive HostKind where
  | Host1
  | Host2
  | Host3
  deriving DecidableEq, Repr

/-- Visitor kinds of the specification's dispatch table: the three concrete visitor
variants. -/
inductive VisitorKind where
  | Visitor1
  | Visitor2
  | Visitor3
  deriving DecidableEq, Repr

/-- The class of the source that a host kind stands for. -/
def HostKind.toClass : HostKind → HostClass
  | .Host1 => .Host1
  | .Host2 => .Host2
  | .Host3 => .Host3

/-- The class of the source that a visitor kind stands for. -/
def VisitorKind.toClass : VisitorKind → VisitorClass
  | .Visitor1 => .Visitor1
  | .Visitor2 => .Visitor2
  | .Visitor3 => .Visitor3

/-- Specification side of the refinement, written from the specification and not from the
source: the flat 3 x 3 dispatch table keyed by (host kind, visitor kind); the entry of a
pair is the line that identifies that visitor and that host. -/
def specDispatchTable : HostKind → VisitorKind → String
  | .Host1, .Visitor1 => "Visitor1 visiting Host1"
  | .Host1, .Visitor2 => "Visitor2 visiting Host1"
  | .Host1, .Visitor3 => "Visitor3 visiting Host1"
  | .Host2, .Visitor1 => "Visitor1 visiting Host2"
  | .Host2, .Visitor2 => "Visitor2 visiting Host2"
  | .Host2, .Visitor3 => "Visitor3 visiting Host2"
  | .Host3, .Visitor1 => "Visitor1 visiting Host3"
  | .Host3, .Visitor2 => "Visitor2 visiting Host3"
  | .Host3, .Visitor3 => "Visitor3 visiting Host3"

/-- Specification side of the refinement: the nested iteration of the dispatch table, host
kinds in the outer loop and visitor kinds in the inner loop. -/
def specTableRun (hks : List HostKind) (vks : List VisitorKind) : List String :=
  (hks.map (fun hk => vks.map (fun vk => specDispatchTable hk vk))).flatten

/-! ## Parts of a line -/

/-- The words by which a handler of a visitor class names its visitor: the base class
writes `Base visitor`, a derived class writes its own name. -/
def visitorPart : VisitorClass → String
  | .Visitor => "Base visitor"
  | .Visitor1 => "Visitor1"
  | .Visitor2 => "Visitor2"
  | .Visitor3 => "Visitor3"

/-- The characters of a text that stand before the first occurrence of `pat` (the whole
text when `pat` does not occur). -/
def textBefore (pat : List Char) : List Char → List Char
  | [] => []
  | c :: cs => if pat.isPrefixOf (c :: cs) then [] else c :: textBefore pat cs

/-! ## Helper lemmas -/

theorem resolveOverload_eq (t : HostClass) : resolveOverload t = t := by
  cases t <;> rfl

theorem AcceptVisitor_eq (host : HostRef) (visitor : VisitorClass) (out : Stdout) :
    AcceptVisitor host visitor out = out ++ [handlerText visitor host.dynamicType] := by
  obtain ⟨d, s, w⟩ := host
  cases d <;> rfl

theorem crossProduct_inner (host : HostRef) (vs : List VisitorClass) (out : Stdout) :
    vs.foldl (fun o2 visitor => AcceptVisitor host visitor o2) out
      = out ++ vs.map (fun visitor => handlerText visitor host.dynamicType) := by
  induction vs generalizing out with
  | nil => simp
  | cons v rest ih =>
    simp only [List.foldl_cons, List.map_cons]
    rw [ih, AcceptVisitor_eq]
    simp

theorem crossProduct_eq (hs : List HostRef) (vs : List VisitorClass) (out : Stdout) :
    crossProduct hs vs out
      = out ++ (hs.map (fun host =>
          vs.map (fun visitor => handlerText visitor host.dynamicType))).flatten := by
  unfold crossProduct
  induction hs generalizing out with
  | nil => simp
  | cons h rest ih =>
    simp only [List.foldl_cons, List.map_cons, List.flatten_cons]
    rw [ih, crossProduct_inner]
    simp

theorem crossProduct_append (hs : List HostRef) (vs : List VisitorClass) (out : Stdout) :
    crossProduct hs vs out = out ++ crossProduct hs vs [] := by
  rw [crossProduct_eq hs vs out, crossProduct_eq hs vs []]
  simp

theorem handlerText_injective (d1 d2 : HostClass) (v1 v2 : VisitorClass)
    (h1 : d1 ≠ .Host) (h2 : d2 ≠ .Host)
    (heq : handlerText v1 d1 = handlerText v2 d2) : d1 = d2 ∧ v1 = v2 := by
  revert h1 h2 heq
  cases d1 <;> cases d2 <;> cases v1 <;> cases v2 <;> decide

theorem handlerText_toClass (hk : HostKind) (vk : VisitorKind) :
    handlerText vk.toClass hk.toClass = specDispatchTable hk vk := by
  cases hk <;> cases vk <;> rfl

theorem crossProduct_refines_table (hs : List HostRef) (hks : List HostKind)
    (vks : List VisitorKind) (out : Stdout)
    (hkinds : hs.map (fun h => h.dynamicType) = hks.map HostKind.toClass) :
    crossProduct hs (vks.map VisitorKind.toClass) out = out ++ specTableRun hks vks := by
  rw [crossProduct_eq]
  unfold specTableRun
  have e : hs.map (fun host =>
        (vks.map VisitorKind.toClass).map (fun v => handlerText v host.dynamicType))
      = (hs.map (fun h => h.dynamicType)).map
          (fun d => vks.map (fun vk => handlerText vk.toClass d)) := by
    simp [List.map_map, Function.comp]
  have f : ((fun d => vks.map (fun vk => handlerText vk.toClass d)) ∘ HostKind.toClass)
      = (fun hk => vks.map (fun vk => specDispatchTable hk vk)) := by
    funext hk
    simp [Function.comp, handlerText_toClass]
  rw [e, hkinds, List.map_map, f]

theorem callVisitHost_static_base (visitor : VisitorClass) (host : HostRef) (out : Stdout)
    (hstatic : host.staticType = .Host) :
    callVisitHost visitor host out = out ++ ["Base visitor visiting base host"] := by
  obtain ⟨d, s, w⟩ := host
  dsimp only at hstatic
  subst hstatic
  cases visitor <;> rfl

/-! ## Claims -/

/-- C1: for a concrete host `HostM` called through a `Host`-typed reference and a concrete
visitor `VisitorN`, `AcceptVisitor` writes exactly the line `VisitorN visiting HostM`; that
line does not start with `Base visitor`, is none of the lines of the base visitor, and
names no other visitor or host. -/
theorem C1_concrete_pair_line (host : HostRef) (visitor : VisitorClass) (out : Stdout)
    (hstatic : host.staticType = .Host)
    (hhost : host.dynamicType.isConcrete = true)
    (hvisitor : visitor.isConcrete = true) :
    AcceptVisitor host visitor out
        = out ++ [visitor.name ++ " visiting " ++ host.dynamicType.name]
      ∧ "Base visitor".toList.isPrefixOf
          (visitor.name ++ " visiting " ++ host.dynamicType.name).toList = false
      ∧ (∀ p : HostClass,
          visitor.name ++ " visiting " ++ host.dynamicType.name ≠ Visitor.VisitHost p)
      ∧ (∀ (v2 : VisitorClass) (h2 : HostClass),
          visitor.name ++ " visiting " ++ host.dynamicType.name
              = v2.name ++ " visiting " ++ h2.name →
            v2 = visitor ∧ h2 = host.dynamicType) := by
  obtain ⟨d, s, w⟩ := host
  dsimp only at hhost ⊢
  have hd : d ≠ .Host := by
    intro h
    subst h
    exact absurd hhost (by decide)
  have hv : visitor ≠ .Visitor := by
    intro h
    subst h
    exact absurd hvisitor (by decide)
  refine ⟨?_, ?_, ?_, ?_⟩
  · rw [AcceptVisitor_eq]
    cases d <;> cases visitor <;> first | rfl | exact (hd rfl).elim | exact (hv rfl).elim
  · cases d <;> cases visitor <;> decide
  · intro p
    cases d <;> cases visitor <;> cases p <;> decide
  · intro v2 h2
    cases d <;> cases visitor <;> cases v2 <;> cases h2 <;> decide

/-- Witness of C1 at `Host2` held as `Host*` and `Visitor1`, on an empty output. -/
theorem C1_concrete_pair_line_witness :
    AcceptVisitor ⟨.Host2, .Host, rfl⟩ .Visitor1 [] = ["Visitor1 visiting Host2"] :=
  (C1_concrete_pair_line ⟨.Host2, .Host, rfl⟩ .Visitor1 [] rfl rfl rfl).1

/-- C2: the full run of `main` writes exactly the nine lines of the cross product, hosts
in the outer loop and visitors in the inner loop; the line at position `3 * i + j` is the
one `AcceptVisitor` writes for the `i`-th host and the `j`-th visitor. -/
theorem C2_main_output_order (argc : Int) (argv : List String) :
    (main argc argv).2 =
        ["Visitor1 visiting Host1", "Visitor2 visiting Host1", "Visitor3 visiting Host1",
         "Visitor1 visiting Host2", "Visitor2 visiting Host2", "Visitor3 visiting Host2",
         "Visitor1 visiting Host3", "Visitor2 visiting Host3", "Visitor3 visiting Host3"]
      ∧ (main argc argv).2.length = 9
      ∧ hosts.map (fun h => h.dynamicType) = [.Host1, .Host2, .Host3]
      ∧ visitors = [.Visitor1, .Visitor2, .Visitor3]
      ∧ ∀ i j : Fin 3, ∃ (host : HostRef) (visitor : VisitorClass),
          hosts[i.val]? = some host ∧ visitors[j.val]? = some visitor
            ∧ (main argc argv).2[3 * i.val + j.val]?
                = some (visitor.name ++ " visiting " ++ host.dynamicType.name)
            ∧ AcceptVisitor host visitor []
                = [visitor.name ++ " visiting " ++ host.dynamicType.name] := by
  refine ⟨rfl, rfl, rfl, rfl, ?_⟩
  intro i j
  fin_cases i <;> fin_cases j <;> exact ⟨_, _, rfl, rfl, rfl, rfl⟩

/-- C3: a direct call `visitor.VisitHost(host)` with `host` of static type `Host` runs the
generic handler and writes `Base visitor visiting base host`, for every dynamic class of
the visitor and every dynamic class of the host object. -/
theorem C3_direct_call_is_generic (visitor : VisitorClass) (host : HostRef) (out : Stdout)
    (hstatic : host.staticType = .Host) :
    callVisitHost visitor host out = out ++ ["Base visitor visiting base host"]
      ∧ callVisitHost visitor host out = VisitHost visitor .Host out
      ∧ finalOverrider visitor .Host = .Visitor
      ∧ ownDefinition .Visitor .Host = some "Base visitor visiting base host" := by
  obtain ⟨d, s, w⟩ := host
  dsimp only at hstatic
  subst hstatic
  cases visitor <;> exact ⟨rfl, rfl, rfl, rfl⟩

/-- Witness of C3 at a `Visitor2` object and a `Host3` object held as `Host*`. -/
theorem C3_direct_call_is_generic_witness :
    callVisitHost .Visitor2 ⟨.Host3, .Host, rfl⟩ [] = ["Base visitor visiting base host"] :=
  (C3_direct_call_is_generic .Visitor2 ⟨.Host3, .Host, rfl⟩ [] rfl).1

/-- C4: one call of `AcceptVisitor` is one virtual call of the `VisitHost` overload whose
parameter type is the dynamic class of the host object, whatever the static type of the
reference: exactly one line is written, the text of the final overrider of that overload
in the visitor. -/
theorem C4_accept_calls_runtime_overload (host : HostRef) (visitor : VisitorClass)
    (out : Stdout) :
    AcceptVisitor host visitor out = VisitHost visitor host.dynamicType out
      ∧ (AcceptVisitor host visitor out).length = out.length + 1
      ∧ AcceptVisitor host visitor out = out ++ [handlerText visitor host.dynamicType]
      ∧ ownDefinition (finalOverrider visitor host.dynamicType) host.dynamicType
          = some (handlerText visitor host.dynamicType) := by
  obtain ⟨d, s, w⟩ := host
  refine ⟨?_, ?_, ?_, ?_⟩
  · cases d <;> rfl
  · rw [AcceptVisitor_eq]
    simp
  · exact AcceptVisitor_eq _ _ _
  · cases d <;> cases visitor <;> rfl

/-- C5: for a concrete host object, `AcceptVisitor` through a reference of static type
`Host` and through a reference of the concrete type write the same output, and in both
cases the body of the concrete override runs. -/
theorem C5_accept_independent_of_static_type (viaBase viaOwn : HostRef)
    (visitor : VisitorClass) (out : Stdout)
    (hsame : viaBase.dynamicType = viaOwn.dynamicType)
    (hconcrete : viaOwn.dynamicType.isConcrete = true)
    (hbase : viaBase.staticType = .Host)
    (hown : viaOwn.staticType = viaOwn.dynamicType) :
    AcceptVisitor viaBase visitor out = AcceptVisitor viaOwn visitor out
      ∧ (viaOwn.dynamicType = .Host1 →
          AcceptVisitor viaBase visitor out = Host1.AcceptVisitor visitor out
            ∧ AcceptVisitor viaOwn visitor out = Host1.AcceptVisitor visitor out)
      ∧ (viaOwn.dynamicType = .Host2 →
          AcceptVisitor viaBase visitor out = Host2.AcceptVisitor visitor out
            ∧ AcceptVisitor viaOwn visitor out = Host2.AcceptVisitor visitor out)
      ∧ (viaOwn.dynamicType = .Host3 →
          AcceptVisitor viaBase visitor out = Host3.AcceptVisitor visitor out
            ∧ AcceptVisitor viaOwn visitor out = Host3.AcceptVisitor visitor out) := by
  obtain ⟨d1, s1, w1⟩ := viaBase
  obtain ⟨d2, s2, w2⟩ := viaOwn
  dsimp only at hsame hconcrete hbase hown ⊢
  subst hsame hbase hown
  refine ⟨rfl, ?_, ?_, ?_⟩ <;> intro h <;> subst h <;> exact ⟨rfl, rfl⟩

/-- Witness of C5 at a `Host1` object held as `Host&` and as `Host1&`, and `Visitor3`. -/
theorem C5_accept_independent_of_static_type_witness :
    AcceptVisitor ⟨.Host1, .Host, rfl⟩ .Visitor3 []
      = AcceptVisitor ⟨.Host1, .Host1, rfl⟩ .Visitor3 [] :=
  (C5_accept_independent_of_static_type ⟨.Host1, .Host, rfl⟩ ⟨.Host1, .Host1, rfl⟩
    .Visitor3 [] rfl rfl rfl rfl).1

/-- C6: the generic handler `VisitHost(Host&)` is defined in class `Visitor` only, so it is
the final overrider in all four visitor classes: presenting an object of dynamic class
`Host` to any visitor writes `Base visitor visiting base host`. -/
theorem C6_generic_handler_inherited (host : HostRef) (visitor : VisitorClass)
    (out : Stdout) (hdyn : host.dynamicType = .Host) :
    AcceptVisitor host visitor out = out ++ ["Base visitor visiting base host"]
      ∧ (∀ c : VisitorClass, (ownDefinition c .Host).isSome = true ↔ c = .Visitor)
      ∧ finalOverrider visitor .Host = .Visitor
      ∧ ownDefinition .Visitor .Host = some "Base visitor visiting base host" := by
  obtain ⟨d, s, w⟩ := host
  dsimp only at hdyn
  subst hdyn
  refine ⟨?_, ?_, ?_, rfl⟩
  · cases visitor <;> rfl
  · intro c
    cases c <;> decide
  · cases visitor <;> rfl

/-- Witness of C6 at a `Host` object and a `Visitor2` object. -/
theorem C6_generic_handler_inherited_witness :
    AcceptVisitor ⟨.Host, .Host, rfl⟩ .Visitor2 [] = ["Base visitor visiting base host"] :=
  (C6_generic_handler_inherited ⟨.Host, .Host, rfl⟩ .Visitor2 [] rfl).1

/-- C7: for concrete hosts and concrete visitors `AcceptVisitor` writes the same line for
two pairs only if the hosts have the same class and the visitors have the same class; the
nine lines of the full run have no duplicate and the line of every pair occurs in them
exactly once. -/
theorem C7_concrete_lines_distinct (h1 h2 : HostRef) (v1 v2 : VisitorClass)
    (out : Stdout) (argc : Int) (argv : List String)
    (hh1 : h1.dynamicType.isConcrete = true) (hh2 : h2.dynamicType.isConcrete = true)
    (hv1 : v1.isConcrete = true) (_hv2 : v2.isConcrete = true) :
    (AcceptVisitor h1 v1 out = AcceptVisitor h2 v2 out →
        h1.dynamicType = h2.dynamicType ∧ v1 = v2)
      ∧ (main argc argv).2.Nodup
      ∧ (∀ line : String, AcceptVisitor h1 v1 [] = [line] →
          (main argc argv).2.count line = 1) := by
  obtain ⟨d1, s1, w1⟩ := h1
  obtain ⟨d2, s2, w2⟩ := h2
  dsimp only at hh1 hh2 ⊢
  have e1 : d1 ≠ .Host := by
    intro h
    subst h
    exact absurd hh1 (by decide)
  have e2 : d2 ≠ .Host := by
    intro h
    subst h
    exact absurd hh2 (by decide)
  have e3 : v1 ≠ .Visitor := by
    intro h
    subst h
    exact absurd hv1 (by decide)
  refine ⟨?_, ?_, ?_⟩
  · intro h
    rw [AcceptVisitor_eq, AcceptVisitor_eq] at h
    have h3 := List.append_cancel_left h
    exact handlerText_injective d1 d2 v1 v2 e1 e2 (by simpa using h3)
  · show (crossProduct hosts visitors []).Nodup
    decide
  · intro line hline
    rw [AcceptVisitor_eq] at hline
    have h4 : handlerText v1 d1 = line := by simpa using hline
    subst h4
    show (crossProduct hosts visitors []).count (handlerText v1 d1) = 1
    cases d1 <;> cases v1 <;> first | decide | exact (e1 rfl).elim | exact (e3 rfl).elim

/-- Witness of C7 at the pairs `(Host1, Visitor2)` and `(Host2, Visitor1)`. -/
theorem C7_concrete_lines_distinct_witness :
    (main 1 ["a.out"]).2.Nodup
      ∧ (main 1 ["a.out"]).2.count "Visitor2 visiting Host1" = 1 :=
  ⟨(C7_concrete_lines_distinct ⟨.Host1, .Host, rfl⟩ ⟨.Host2, .Host, rfl⟩ .Visitor2 .Visitor1
      [] 1 ["a.out"] rfl rfl rfl rfl).2.1,
   (C7_concrete_lines_distinct ⟨.Host1, .Host, rfl⟩ ⟨.Host2, .Host, rfl⟩ .Visitor2 .Visitor1
      [] 1 ["a.out"] rfl rfl rfl rfl).2.2 "Visitor2 visiting Host1" rfl⟩

/-- C8: a second run of the cross product, continuing on the output of the first, writes
the same lines as the first run: the lines written by a run are those of a run on an
empty output, for any host and visitor arrays and any earlier output. -/
theorem C8_second_run_identical (hs : List HostRef) (vs : List VisitorClass)
    (out : Stdout) :
    crossProduct hs vs (crossProduct hs vs out)
        = out ++ crossProduct hs vs [] ++ crossProduct hs vs []
      ∧ (crossProduct hs vs (crossProduct hs vs out)).drop (crossProduct hs vs out).length
          = (crossProduct hs vs out).drop out.length
      ∧ crossProduct hosts visitors (crossProduct hosts visitors [])
          = (main 0 []).2 ++ (main 0 []).2 := by
  have e1 : crossProduct hs vs (crossProduct hs vs out)
      = crossProduct hs vs out ++ crossProduct hs vs [] := crossProduct_append _ _ _
  have e2 : crossProduct hs vs out = out ++ crossProduct hs vs [] := crossProduct_append _ _ _
  refine ⟨?_, ?_, ?_⟩
  · rw [e1, e2]
  · rw [e1, List.drop_left]
    rw [e2, List.drop_left]
  · exact crossProduct_append _ _ _

/-- C9: `main` ignores `argc` and `argv`: for all arguments it returns 0 and writes the
same nine lines. -/
theorem C9_main_ignores_arguments (argc : Int) (argv : List String) :
    (main argc argv).1 = 0
      ∧ (main argc argv).2 =
        ["Visitor1 visiting Host1", "Visitor2 visiting Host1", "Visitor3 visiting Host1",
         "Visitor1 visiting Host2", "Visitor2 visiting Host2", "Visitor3 visiting Host2",
         "Visitor1 visiting Host3", "Visitor2 visiting Host3", "Visitor3 visiting Host3"]
      ∧ ∀ (argc2 : Int) (argv2 : List String), main argc2 argv2 = main argc argv :=
  ⟨rfl, rfl, fun _ _ => rfl⟩

/-- C10: an object of dynamic class `Visitor` has a handler for all four host classes:
presenting a host of dynamic class `Host`, `Host1`, `Host2`, `Host3` to it writes
`Base visitor visiting base host`, `Base visitor visiting Host1`,
`Base visitor visiting Host2`, `Base visitor visiting Host3` respectively. -/
theorem C10_base_visitor_defaults (host : HostRef) (out : Stdout) :
    AcceptVisitor host .Visitor out
        = out ++ [match host.dynamicType with
            | .Host => "Base visitor visiting base host"
            | .Host1 => "Base visitor visiting Host1"
            | .Host2 => "Base visitor visiting Host2"
            | .Host3 => "Base visitor visiting Host3"]
      ∧ finalOverrider .Visitor host.dynamicType = .Visitor := by
  obtain ⟨d, s, w⟩ := host
  cases d <;> exact ⟨rfl, rfl⟩

/-- C11: the two-step protocol refines the flat dispatch table of the specification: for
every host kind and visitor kind, `AcceptVisitor` on a host object of that kind with a
visitor of that kind writes the table entry of the pair, and the output of the full run of
`main` is the nested iteration of the table over the host kinds and the visitor kinds in
order (as is the output of the loops over any arrays of concrete hosts and visitors). -/
theorem C11_two_step_refines_table (host : HostRef) (hk : HostKind) (vk : VisitorKind)
    (out : Stdout) (argc : Int) (argv : List String)
    (hhost : host.dynamicType = hk.toClass) :
    AcceptVisitor host vk.toClass out = out ++ [specDispatchTable hk vk]
      ∧ (main argc argv).2
          = specTableRun [.Host1, .Host2, .Host3] [.Visitor1, .Visitor2, .Visitor3]
      ∧ hosts.map (fun h => h.dynamicType)
          = [HostKind.Host1, HostKind.Host2, HostKind.Host3].map HostKind.toClass
      ∧ visitors
          = [VisitorKind.Visitor1, VisitorKind.Visitor2, VisitorKind.Visitor3].map
              VisitorKind.toClass
      ∧ (∀ (hs : List HostRef) (hks : List HostKind) (vks : List VisitorKind) (o : Stdout),
          hs.map (fun h => h.dynamicType) = hks.map HostKind.toClass →
            crossProduct hs (vks.map VisitorKind.toClass) o = o ++ specTableRun hks vks) := by
  refine ⟨?_, rfl, rfl, rfl, ?_⟩
  · rw [AcceptVisitor_eq, hhost, handlerText_toClass]
  · intro hs hks vks o hkinds
    exact crossProduct_refines_table hs hks vks o hkinds

/-- Witness of C11 at a `Host2` object held as `Host*` and a `Visitor3` object. -/
theorem C11_two_step_refines_table_witness :
    AcceptVisitor ⟨.Host2, .Host, rfl⟩ .Visitor3 [] = ["Visitor3 visiting Host2"] :=
  (C11_two_step_refines_table ⟨.Host2, .Host, rfl⟩ .Host2 .Visitor3 [] 1 ["a.out"] rfl).1

/-- C12: for a host object and a visitor of any class, the two-step call
`h.AcceptVisitor(v)` and the direct call `v.VisitHost(h)` through a `Host`-typed reference
write the same line if and only if the dynamic class of the host is the base `Host`; for a
concrete host they write different lines, and `main`'s loops with the direct call write
nine copies of `Base visitor visiting base host`. -/
theorem C12_two_step_equals_direct_iff_base (twoStep direct : HostRef)
    (visitor : VisitorClass) (out : Stdout)
    (hsame : twoStep.dynamicType = direct.dynamicType)
    (hstatic : direct.staticType = .Host) :
    (AcceptVisitor twoStep visitor out = callVisitHost visitor direct out
        ↔ direct.dynamicType = .Host)
      ∧ callVisitHost visitor direct out = out ++ ["Base visitor visiting base host"]
      ∧ (direct.dynamicType.isConcrete = true →
          AcceptVisitor twoStep visitor out ≠ callVisitHost visitor direct out)
      ∧ crossProductDirect hosts visitors []
          = List.replicate 9 "Base visitor visiting base host" := by
  have hcall := callVisitHost_static_base visitor direct out hstatic
  have key : ∀ a b : String, (out ++ [a] = out ++ [b]) ↔ a = b := by
    intro a b
    simp
  have hiff : AcceptVisitor twoStep visitor out = callVisitHost visitor direct out
      ↔ direct.dynamicType = .Host := by
    rw [AcceptVisitor_eq, hcall, key, hsame]
    generalize direct.dynamicType = d
    cases d <;> cases visitor <;> decide
  refine ⟨hiff, hcall, ?_, ?_⟩
  · intro hconcrete heq
    have hd := hiff.mp heq
    rw [hd] at hconcrete
    exact absurd hconcrete (by decide)
  · decide

/-- Witness of C12 at a `Host1` object, held as `Host1&` for the two-step call and as
`Host&` for the direct call, and a `Visitor2` object. -/
theorem C12_two_step_equals_direct_iff_base_witness :
    AcceptVisitor ⟨.Host1, .Host1, rfl⟩ .Visitor2 []
      ≠ callVisitHost .Visitor2 ⟨.Host1, .Host, rfl⟩ [] :=
  (C12_two_step_equals_direct_iff_base ⟨.Host1, .Host1, rfl⟩ ⟨.Host1, .Host, rfl⟩
    .Visitor2 [] rfl rfl).2.2.1 rfl

/-- C13: for every visitor class and every concrete host, the line written by
`AcceptVisitor` is the visitor part, then ` visiting `, then the class name of the host:
it ends with `visiting HostM` for the dynamic class `HostM` of the host and for no other
host class, and the text before ` visiting` is `Base visitor`, `Visitor1`, `Visitor2` or
`Visitor3` according to the dynamic class of the visitor alone. -/
theorem C13_line_separates (host : HostRef) (visitor : VisitorClass) (out : Stdout)
    (hhost : host.dynamicType.isConcrete = true) :
    ∃ line : String,
      AcceptVisitor host visitor out = out ++ [line]
        ∧ line = visitorPart visitor ++ " visiting " ++ host.dynamicType.name
        ∧ ("visiting " ++ host.dynamicType.name).toList.isSuffixOf line.toList = true
        ∧ (∀ m : HostClass, ("visiting " ++ m.name).toList.isSuffixOf line.toList = true →
            m = host.dynamicType)
        ∧ String.mk (textBefore " visiting".toList line.toList) = visitorPart visitor := by
  obtain ⟨d, s, w⟩ := host
  dsimp only at hhost ⊢
  have e1 : d ≠ .Host := by
    intro h
    subst h
    exact absurd hhost (by decide)
  refine ⟨handlerText visitor d, AcceptVisitor_eq _ _ _, ?_, ?_, ?_, ?_⟩
  · cases d <;> cases visitor <;> first | rfl | exact (e1 rfl).elim
  · cases d <;> cases visitor <;> first | decide | exact (e1 rfl).elim
  · intro m
    cases d <;> cases visitor <;> cases m <;> decide
  · cases d <;> cases visitor <;> first | decide | exact (e1 rfl).elim

/-- Witness of C13 at a `Host3` object held as `Host*` and an object of the base class
`Visitor`. -/
theorem C13_line_separates_witness :
    ∃ line : String,
      AcceptVisitor ⟨.Host3, .Host, rfl⟩ .Visitor [] = [line]
        ∧ line = "Base visitor visiting Host3" :=
  (C13_line_separates ⟨.Host3, .Host, rfl⟩ .Visitor [] rfl).imp
    (fun _ h => ⟨h.1, h.2.1⟩)

end DoubleDispatch
